import Mathlib

/-!
Verification of the remote sensor data server against its specification.

The development shallowly embeds the parts of the Rust sources the claims
touch:

* `RSDS.Sha256` — executable SHA-256 over byte lists (`List Nat`, each < 256),
  used by the key-derivation claims.
* the data model (`Sensor`, `CcmData`, `FieldType`) from `server/src/main.rs`,
* the TCP ingestion frame decoder from `server/src/tcp_server.rs`
  (`handle_data_client`), with the AES-CCM decryption primitive abstracted as
  a deterministic function parameter,
* the HTTP authentication pipeline and the register/deregister handlers from
  `server/src/http_server.rs`, with base64, RSA signature parsing and
  verification, and JSON deserialization abstracted as function parameters,
* the sensor firmware key-rotation and frame-emission code from
  `sensor/src/main.rs`.

Machine integers are embedded as `Nat` with explicit reduction modulo 2^32
where the source wraps; byte strings are `List Nat`; fallible operations
return `Option`.
-/

namespace RSDS

namespace Sha256

/-- 2^32, the modulus of the 32-bit words SHA-256 computes with. -/
def M32 : Nat := 4294967296

/-- Right rotation of a 32-bit word (argument assumed < 2^32). -/
def rotr (k x : Nat) : Nat := x / 2 ^ k + x % 2 ^ k * 2 ^ (32 - k)

/-- The Σ0 function of the SHA-256 compression. -/
def bsig0 (x : Nat) : Nat := rotr 2 x ^^^ rotr 13 x ^^^ rotr 22 x

/-- The Σ1 function of the SHA-256 compression. -/
def bsig1 (x : Nat) : Nat := rotr 6 x ^^^ rotr 11 x ^^^ rotr 25 x

/-- The σ0 function of the SHA-256 message schedule. -/
def ssig0 (x : Nat) : Nat := rotr 7 x ^^^ rotr 18 x ^^^ x / 2 ^ 3

/-- The σ1 function of the SHA-256 message schedule. -/
def ssig1 (x : Nat) : Nat := rotr 17 x ^^^ rotr 19 x ^^^ x / 2 ^ 10

/-- The SHA-256 choice function; negation is xor with 2^32 - 1. -/
def ch (x y z : Nat) : Nat := (x &&& y) ^^^ ((x ^^^ 4294967295) &&& z)

/-- The SHA-256 majority function. -/
def maj (x y z : Nat) : Nat := (x &&& y) ^^^ (x &&& z) ^^^ (y &&& z)

/-- The 64 SHA-256 round constants of FIPS 180-2 (decimal). -/
def kConst : List Nat :=
  [1116352408, 1899447441, 3049323471, 3921009573, 961987163,
   1508970993, 2453635748, 2870763221, 3624381080, 310598401,
   607225278, 1426881987, 1925078388, 2162078206, 2614888103,
   3248222580, 3835390401, 4022224774, 264347078, 604807628,
   770255983, 1249150122, 1555081692, 1996064986, 2554220882,
   2821834349, 2952996808, 3210313671, 3336571891, 3584528711,
   113926993, 338241895, 666307205, 773529912, 1294757372,
   1396182291, 1695183700, 1986661051, 2177026350, 2456956037,
   2730485921, 2820302411, 3259730800, 3345764771, 3516065817,
   3600352804, 4094571909, 275423344, 430227734, 506948616,
   659060556, 883997877, 958139571, 1322822218, 1537002063,
   1747873779, 1955562222, 2024104815, 2227730452, 2361852424,
   2428436474, 2756734187, 3204031479, 3329325298]

/-- The SHA-256 initial hash state of FIPS 180-2 (decimal). -/
def initH : List Nat :=
  [1779033703, 3144134277, 1013904242, 2773480762,
   1359893119, 2600822924, 528734635, 1541459225]

/-- Big-endian 4-byte encoding of a 32-bit value (`u32::to_be_bytes`). -/
def be4 (n : Nat) : List Nat :=
  [n / 2 ^ 24 % 256, n / 2 ^ 16 % 256, n / 2 ^ 8 % 256, n % 256]

/-- Big-endian 8-byte encoding of a 64-bit value. -/
def be8 (n : Nat) : List Nat :=
  [n / 2 ^ 56 % 256, n / 2 ^ 48 % 256, n / 2 ^ 40 % 256, n / 2 ^ 32 % 256,
   n / 2 ^ 24 % 256, n / 2 ^ 16 % 256, n / 2 ^ 8 % 256, n % 256]

/-- SHA-256 padding: a 1 bit, zeros, and the 64-bit bit length. -/
def pad (msg : List Nat) : List Nat :=
  let L := msg.length
  let r := (L + 1) % 64
  let z := if r ≤ 56 then 56 - r else 120 - r
  msg ++ 128 :: List.replicate z 0 ++ be8 (8 * L)

/-- Group bytes into big-endian 32-bit words. -/
def toWords : List Nat → List Nat
  | a :: b :: c :: d :: t => (((a * 256 + b) * 256 + c) * 256 + d) :: toWords t
  | _ => []

/-- Extend the 16 block words by `n` schedule words. -/
def extend (ws : List Nat) : Nat → List Nat
  | 0 => ws
  | n + 1 =>
    let i := ws.length
    let w := (ssig1 (ws.getD (i - 2) 0) + ws.getD (i - 7) 0
              + ssig0 (ws.getD (i - 15) 0) + ws.getD (i - 16) 0) % M32
    extend (ws ++ [w]) n

/-- One SHA-256 round on the state `[a,b,c,d,e,f,g,h]`;
`kw` is the sum of the round constant and the schedule word. -/
def compressionRound (st : List Nat) (kw : Nat) : List Nat :=
  match st with
  | [a, b, c, d, e, f, g, h] =>
    let t1 := (h + bsig1 e + ch e f g + kw) % M32
    let t2 := (bsig0 a + maj a b c) % M32
    [(t1 + t2) % M32, a, b, c, (d + t1) % M32, e, f, g]
  | _ => st

/-- Compress one 64-byte block into the hash state. -/
def compress (h : List Nat) (block : List Nat) : List Nat :=
  let ws := extend (toWords block) 48
  let kws := List.zipWith (fun k w => (k + w) % M32) kConst ws
  let st := kws.foldl compressionRound h
  List.zipWith (fun x y => (x + y) % M32) h st

/-- Split a byte list into 64-byte chunks; the fuel bounds the number of
chunks and any value at least the list length is enough. -/
def chunksF : Nat → List Nat → List (List Nat)
  | 0, _ => []
  | _, [] => []
  | fuel + 1, l => l.take 64 :: chunksF fuel (l.drop 64)

/-- SHA-256 of a byte list, as the 32 digest bytes. -/
def sha256 (msg : List Nat) : List Nat :=
  let p := pad msg
  ((chunksF p.length p).foldl compress initH).foldr (fun w acc => be4 w ++ acc) []

end Sha256

/-! ## Data model (`server/src/main.rs`) -/

/-- Type `FieldType` from `server/src/main.rs`. -/
inductive FieldType where
  | Float
  | Integer
deriving DecidableEq

/-- Type `CcmData` from `server/src/main.rs`: the per-sensor CCM parameters.
In the source `iv` is `[u8; 8]`; here it is a byte list and the length is
carried as a hypothesis where it matters. -/
structure CcmData where
  direction_bit : Bool
  iv : List Nat
deriving DecidableEq

/-- Type `Sensor` from `server/src/main.rs`. `name` is the UTF-8 byte string of
the Rust `String` (UTF-8 encoding is injective, so equality of names is
equality of byte lists); `key` is `[u8; 16]`, `interval` a `u32`. -/
structure Sensor where
  name : List Nat
  fields : List (List Nat)
  field_types : List FieldType
  key : List Nat
  interval : Nat
  ccm_data : CcmData
deriving DecidableEq

/-- Method `CcmData::get_nonce` from `server/src/main.rs`: the counter bytes as
received, extended by the record's iv; the `try_into` to `[u8; 13]` fails
(a panic in the source) unless the result is exactly 13 bytes. -/
def CcmData.get_nonce (c : CcmData) (counter : List Nat) : Option (List Nat) :=
  let le_bits := counter ++ c.iv
  if le_bits.length = 13 then some le_bits else none

/-! ## Association-list model of `std::collections::HashMap`

The registry and the user tables are `HashMap`s. They are embedded as
association lists; `insertA` replaces the binding of an existing key
(`HashMap::insert`), `removeA` removes it and returns it
(`HashMap::remove`). The server only ever builds registries with distinct
keys, which the registration claims make explicit. -/

/-- First binding of a key, `HashMap::get`. -/
def lookupA {α β : Type} [DecidableEq α] (k : α) : List (α × β) → Option β
  | [] => none
  | (a, b) :: t => if a = k then some b else lookupA k t

/-- Embeds `HashMap::insert`: replace the binding if the key is present, else add it. -/
def insertA {α β : Type} [DecidableEq α] (k : α) (v : β) : List (α × β) → List (α × β)
  | [] => [(k, v)]
  | (a, b) :: t => if a = k then (k, v) :: t else (a, b) :: insertA k v t

/-- Embeds `HashMap::remove`: drop the first binding of the key and return it. -/
def removeA {α β : Type} [DecidableEq α] (k : α) : List (α × β) → Option β × List (α × β)
  | [] => (none, [])
  | (a, b) :: t =>
    if a = k then (some b, t)
    else
      let r := removeA k t
      (r.1, (a, b) :: r.2)

/-! ## UTF-8 validity

`String::from_utf8` succeeds exactly on well-formed UTF-8 (RFC 3629: no
overlong forms, no surrogates, nothing above U+10FFFF). The decoder below
accepts exactly those byte lists. -/

/-- A UTF-8 continuation byte. -/
def isCont (b : Nat) : Bool := 128 ≤ b && b ≤ 191

/-- Well-formedness of a byte list as UTF-8 (`String::from_utf8` succeeds). -/
def validUtf8 : List Nat → Bool
  | [] => true
  | b :: t =>
    if b ≤ 127 then validUtf8 t
    else if 194 ≤ b && b ≤ 223 then
      match t with
      | b1 :: t1 => isCont b1 && validUtf8 t1
      | [] => false
    else if b = 224 then
      match t with
      | b1 :: b2 :: t2 => (160 ≤ b1 && b1 ≤ 191) && isCont b2 && validUtf8 t2
      | _ => false
    else if 225 ≤ b && b ≤ 236 then
      match t with
      | b1 :: b2 :: t2 => isCont b1 && isCont b2 && validUtf8 t2
      | _ => false
    else if b = 237 then
      match t with
      | b1 :: b2 :: t2 => (128 ≤ b1 && b1 ≤ 159) && isCont b2 && validUtf8 t2
      | _ => false
    else if 238 ≤ b && b ≤ 239 then
      match t with
      | b1 :: b2 :: t2 => isCont b1 && isCont b2 && validUtf8 t2
      | _ => false
    else if b = 240 then
      match t with
      | b1 :: b2 :: b3 :: t3 => (144 ≤ b1 && b1 ≤ 191) && isCont b2 && isCont b3 && validUtf8 t3
      | _ => false
    else if 241 ≤ b && b ≤ 243 then
      match t with
      | b1 :: b2 :: b3 :: t3 => isCont b1 && isCont b2 && isCont b3 && validUtf8 t3
      | _ => false
    else if b = 244 then
      match t with
      | b1 :: b2 :: b3 :: t3 => (128 ≤ b1 && b1 ≤ 143) && isCont b2 && isCont b3 && validUtf8 t3
      | _ => false
    else false

/-! ## TCP ingestion decoder (`server/src/tcp_server.rs`, `handle_data_client`)

The loop body is embedded as a step function over the remaining input
bytes; the AES-128-CCM decryption (`Aes128Ccm::decrypt`, a deterministic
external primitive) is a function parameter
`dec : key → nonce → ciphertext → Option plaintext`. Reads never fail
except by end of input, matching `read_until` returning `Ok(0)` and
`read_u8`/`read_exact` returning `Err` at EOF. -/

/-- Embeds `BufReader::read_until d`: bytes read (delimiter included when found)
and the remaining input. At EOF everything read so far is returned. -/
def readUntil (d : Nat) : List Nat → List Nat × List Nat
  | [] => ([], [])
  | x :: t =>
    if x = d then ([x], t)
    else
      let r := readUntil d t
      (x :: r.1, r.2)

/-- Observable events of one connection task (log lines). -/
inductive Event where
  | seekInfo (n : Nat)
  | warnName
  | warnMic
  | decoded (p : List Nat)
deriving DecidableEq

/-- Why the handler returned (which log line accompanied the close). -/
inductive CloseReason where
  | eofStart
  | eofName
  | eofCounter
  | eofSize
  | eofBody
  | unknownSensor
deriving DecidableEq

/-- Outcome of one loop iteration. -/
inductive Next where
  | closed (r : CloseReason)
  | panicked
  | more (rest : List Nat)
deriving DecidableEq

/-- The registry as the dispatch step reads it. -/
abbrev Registry := List (List Nat × Sensor)

/-- Abstract AES-128-CCM decryption: key, nonce, ciphertext-with-tag. -/
abbrev DecryptFn := List Nat → List Nat → List Nat → Option (List Nat)

/-- Phase `DISPATCH`: look up the sensor, build the nonce and cipher, decrypt.
`Aes128Ccm::new_from_slice(..).unwrap()` and the nonce `try_into().unwrap()`
panic unless the key is 16 and the nonce 13 bytes; a successful decryption
is logged through `String::from_utf8(bytes).unwrap()`, which panics on
non-UTF-8 plaintext. -/
def dispatchStep (sensors : Registry) (dec : DecryptFn) (ev0 : List Event)
    (name counter body s5 : List Nat) : List Event × Next :=
  match lookupA name sensors with
  | none => (ev0, Next.closed CloseReason.unknownSensor)
  | some sensor =>
    match sensor.ccm_data.get_nonce counter with
    | none => (ev0, Next.panicked)
    | some nonce =>
      if sensor.key.length = 16 then
        match dec sensor.key nonce body with
        | some bytes =>
          if validUtf8 bytes then (ev0 ++ [Event.decoded bytes], Next.more s5)
          else (ev0, Next.panicked)
        | none => (ev0 ++ [Event.warnMic], Next.more s5)
      else (ev0, Next.panicked)

/-- Phases `READ_LEN` and `READ_BODY`: one size byte then exactly that many bytes. -/
def lenBodyStep (sensors : Registry) (dec : DecryptFn) (ev0 : List Event)
    (name counter s3 : List Nat) : List Event × Next :=
  match s3 with
  | [] => (ev0, Next.closed CloseReason.eofSize)
  | size :: s4 =>
    if s4.length < size then (ev0, Next.closed CloseReason.eofBody)
    else dispatchStep sensors dec ev0 name counter (s4.take size) (s4.drop size)

/-- Phase `READ_COUNTER`: exactly 5 bytes, EOF closes with a warning. -/
def counterStep (sensors : Registry) (dec : DecryptFn) (ev0 : List Event)
    (name s2 : List Nat) : List Event × Next :=
  if s2.length < 5 then (ev0, Next.closed CloseReason.eofCounter)
  else lenBodyStep sensors dec ev0 name (s2.take 5) (s2.drop 5)

/-- Phase `READ_NAME`: read to `<`, pop the terminator, require UTF-8; a bad name
logs a warning and continues from `SEEK_OPEN` without closing. -/
def nameStep (sensors : Registry) (dec : DecryptFn) (ev0 : List Event)
    (s1 : List Nat) : List Event × Next :=
  match readUntil 60 s1 with
  | (nameBuf, s2) =>
    if nameBuf.length = 0 then (ev0, Next.closed CloseReason.eofName)
    else
      if validUtf8 nameBuf.dropLast then counterStep sensors dec ev0 nameBuf.dropLast s2
      else (ev0 ++ [Event.warnName], Next.more s2)

/-- One iteration of the `handle_data_client` loop: seek `>` (garbage before
it is an informational event), then the name, counter, length, body and
dispatch phases. -/
def handle_data_client_step (sensors : Registry) (dec : DecryptFn)
    (input : List Nat) : List Event × Next :=
  match readUntil 62 input with
  | (start, s1) =>
    if start.length = 0 then ([], Next.closed CloseReason.eofStart)
    else
      nameStep sensors dec
        (if 1 < start.length then [Event.seekInfo (start.length - 1)] else []) s1

/-- How a connection task ends: a (clean or warned) close, or a panic. -/
inductive EndState where
  | closed (r : CloseReason)
  | panicked
deriving DecidableEq

/-- Reading via `readUntil` splits its input: read bytes followed by the rest. -/
theorem readUntil_append (d : Nat) (l : List Nat) :
    (readUntil d l).1 ++ (readUntil d l).2 = l := by
  induction l with
  | nil => rfl
  | cons x t ih =>
    by_cases hx : x = d <;> simp [readUntil, hx, ih]

/-- A `more` outcome of the dispatch phase continues exactly at `s5`. -/
theorem dispatchStep_more {sensors : Registry} {dec : DecryptFn}
    {ev0 : List Event} {name counter body s5 : List Nat} {es : List Event} {r : List Nat}
    (h : dispatchStep sensors dec ev0 name counter body s5 = (es, Next.more r)) :
    r = s5 := by
  unfold dispatchStep at h
  split at h
  · simp at h
  · split at h
    · simp at h
    · split at h
      · split at h
        · split at h <;> simp_all
        · simp_all
      · simp at h

/-- A `more` outcome of the length/body phase consumes at least one byte. -/
theorem lenBodyStep_more {sensors : Registry} {dec : DecryptFn}
    {ev0 : List Event} {name counter s3 : List Nat} {es : List Event} {r : List Nat}
    (h : lenBodyStep sensors dec ev0 name counter s3 = (es, Next.more r)) :
    r.length < s3.length := by
  unfold lenBodyStep at h
  split at h
  · simp at h
  · rename_i size s4
    split at h
    · simp at h
    · have hr := dispatchStep_more h
      subst hr
      calc (s4.drop size).length ≤ s4.length := by
              simp
        _ < (size :: s4).length := by simp

/-- A `more` outcome of the counter phase consumes at least one byte. -/
theorem counterStep_more {sensors : Registry} {dec : DecryptFn}
    {ev0 : List Event} {name s2 : List Nat} {es : List Event} {r : List Nat}
    (h : counterStep sensors dec ev0 name s2 = (es, Next.more r)) :
    r.length < s2.length := by
  unfold counterStep at h
  split at h
  · simp at h
  · have := lenBodyStep_more h
    have hd : (s2.drop 5).length ≤ s2.length := by
      simp
    omega

/-- A `more` outcome of the name phase consumes at least one byte. -/
theorem nameStep_more {sensors : Registry} {dec : DecryptFn}
    {ev0 : List Event} {s1 : List Nat} {es : List Event} {r : List Nat}
    (h : nameStep sensors dec ev0 s1 = (es, Next.more r)) :
    r.length < s1.length := by
  unfold nameStep at h
  have hsplit := readUntil_append 60 s1
  split at h
  rename_i nameBuf s2 heq
  rw [heq] at hsplit
  simp only at hsplit
  have hlen : nameBuf.length + s2.length = s1.length := by
    have := congrArg List.length hsplit
    simpa using this
  split at h
  · simp at h
  · rename_i hnz
    split at h
    · have := counterStep_more h
      omega
    · have hr : r = s2 := by
        have : (ev0 ++ [Event.warnName], Next.more s2) = (es, Next.more r) := h
        injection this with h1 h2
        injection h2 with h3
        exact h3.symm
      subst hr
      omega

/-- A `more` outcome of one loop iteration strictly consumes input. -/
theorem handle_data_client_step_more {sensors : Registry} {dec : DecryptFn}
    {input : List Nat} {es : List Event} {r : List Nat}
    (h : handle_data_client_step sensors dec input = (es, Next.more r)) :
    r.length < input.length := by
  unfold handle_data_client_step at h
  have hsplit := readUntil_append 62 input
  split at h
  rename_i start s1 heq
  rw [heq] at hsplit
  simp only at hsplit
  have hlen : start.length + s1.length = input.length := by
    have := congrArg List.length hsplit
    simpa using this
  split at h
  · simp at h
  · have := nameStep_more h
    omega

/-- Function `handle_data_client` from `server/src/tcp_server.rs`: run the decoder
loop over the whole input, collecting the logged events and the final state
of the connection task. -/
def handle_data_client (sensors : Registry) (dec : DecryptFn) :
    (input : List Nat) → List Event × EndState
  | input =>
    match h : handle_data_client_step sensors dec input with
    | (es, Next.closed r) => (es, EndState.closed r)
    | (es, Next.panicked) => (es, EndState.panicked)
    | (es, Next.more rest) =>
      have : rest.length < input.length := handle_data_client_step_more h
      let t := handle_data_client sensors dec rest
      (es ++ t.1, t.2)
termination_by input => input.length

/-- Unfolding: an iteration that closes the connection ends the run. -/
theorem handle_data_client_closed {sensors : Registry} {dec : DecryptFn}
    {input : List Nat} {es : List Event} {r : CloseReason}
    (h : handle_data_client_step sensors dec input = (es, Next.closed r)) :
    handle_data_client sensors dec input = (es, EndState.closed r) := by
  rw [handle_data_client]
  split <;> rename_i heq <;> rw [h] at heq
  · injection heq with h1 h2
    injection h2 with h3
    subst h1; subst h3; rfl
  · injection heq with h1 h2; cases h2
  · injection heq with h1 h2; cases h2

/-- Unfolding: an iteration that panics ends the run. -/
theorem handle_data_client_panicked {sensors : Registry} {dec : DecryptFn}
    {input : List Nat} {es : List Event}
    (h : handle_data_client_step sensors dec input = (es, Next.panicked)) :
    handle_data_client sensors dec input = (es, EndState.panicked) := by
  rw [handle_data_client]
  split <;> rename_i heq <;> rw [h] at heq
  · injection heq with h1 h2; cases h2
  · injection heq with h1 h2
    subst h1; rfl
  · injection heq with h1 h2; cases h2

/-- Unfolding: an iteration that continues prepends its events and the run
proceeds on the remaining input with no other carried state. -/
theorem handle_data_client_more {sensors : Registry} {dec : DecryptFn}
    {input : List Nat} {es : List Event} {rest : List Nat}
    (h : handle_data_client_step sensors dec input = (es, Next.more rest)) :
    handle_data_client sensors dec input =
      (es ++ (handle_data_client sensors dec rest).1,
       (handle_data_client sensors dec rest).2) := by
  rw [handle_data_client]
  split <;> rename_i heq <;> rw [h] at heq
  · injection heq with h1 h2; cases h2
  · injection heq with h1 h2; cases h2
  · injection heq with h1 h2
    injection h2 with h3
    subst h1; subst h3; rfl

/-! ## Control-plane HTTP server (`server/src/http_server.rs`)

The RSA primitives, base64, and serde are external: they enter the
embedding as opaque function parameters bundled in `AuthEnv`. A header
value is `none` when absent, `some none` when present but not readable as
a string (`HeaderValue::to_str` fails), `some (some s)` otherwise. -/

/-- Opaque handle for an RSA verifying key (`VerifyingKey<Sha256>`). -/
abbrev VKey := Nat

/-- Opaque handle for a parsed PKCS#1 v1.5 signature (`Signature`). -/
abbrev Sig := Nat

/-- The request-independent state and external primitives the
authentication step consults. -/
structure AuthEnv where
  authorized_users : List (String × VKey)
  user_challenges : List (String × List Nat)
  b64_decode : String → Option (List Nat)
  sig_try_from : List Nat → Option Sig
  verify : VKey → List Nat → Sig → Bool
  parse_sensor : List Nat → Option Sensor

/-- The four headers of a register/deregister POST. -/
structure RequestHeaders where
  user : Option (Option String)
  signature : Option (Option String)
  key : Option (Option String)
  challenge : Option (Option String)

/-- Function `authenticate_and_parse_sensor` from `server/src/http_server.rs`,
status code (as its number) plus the parsed record. The source first
requires all four headers, then reads each as a string in order
(user, signature, key, challenge), then checks the user, parses and
verifies the challenge signature, parses and verifies the body signature,
and finally deserializes the body. -/
def authenticate_and_parse_sensor (env : AuthEnv) (h : RequestHeaders)
    (body : List Nat) : Nat × Option Sensor :=
  match h.user, h.signature, h.key, h.challenge with
  | some userH, some sigH, some keyH, some chalH =>
    match userH with
    | none => (400, none)
    | some user =>
      match sigH with
      | none => (400, none)
      | some sigStr =>
        match keyH with
        | none => (400, none)
        | some _ =>
          match chalH with
          | none => (400, none)
          | some chalStr =>
            match lookupA user env.authorized_users with
            | none => (401, none)
            | some vkey =>
              match env.b64_decode chalStr with
              | none => (400, none)
              | some chalBytes =>
                match env.sig_try_from chalBytes with
                | none => (400, none)
                | some chalSig =>
                  match lookupA user env.user_challenges with
                  | none => (403, none)
                  | some stored =>
                    if env.verify vkey stored chalSig then
                      match env.b64_decode sigStr with
                      | none => (400, none)
                      | some sigBytes =>
                        match env.sig_try_from sigBytes with
                        | none => (400, none)
                        | some bodySig =>
                          if env.verify vkey body bodySig then
                            match env.parse_sensor body with
                            | none => (400, none)
                            | some sensor => (200, some sensor)
                          else (401, none)
                    else (403, none)
  | _, _, _, _ => (400, none)

/-- Claim C3's description of the same pipeline, written from the claim's
words: the conditions in the claim's order, each with the claim's status
code. Compared against `authenticate_and_parse_sensor`. -/
def claimed_auth_status (env : AuthEnv) (h : RequestHeaders)
    (body : List Nat) : Nat × Option Sensor :=
  match h.user, h.signature, h.key, h.challenge with
  | some (some user), some (some sigStr), some (some _), some (some chalStr) =>
    match lookupA user env.authorized_users with
    | none => (401, none)
    | some vkey =>
      match (env.b64_decode chalStr).bind env.sig_try_from with
      | none => (400, none)
      | some chalSig =>
        match lookupA user env.user_challenges with
        | none => (403, none)
        | some stored =>
          if ¬ env.verify vkey stored chalSig then (403, none)
          else
            match (env.b64_decode sigStr).bind env.sig_try_from with
            | none => (400, none)
            | some bodySig =>
              if ¬ env.verify vkey body bodySig then (401, none)
              else
                match env.parse_sensor body with
                | none => (400, none)
                | some sensor => (200, some sensor)
  | _, _, _, _ => (400, none)

/-- The operation-specific step of `register_sensor`
(`server/src/http_server.rs`): under the registry write lock, 409 if the
name is taken, otherwise insert and 200. -/
def register_sensor (sensors : Registry) (sensor : Sensor) : Nat × Registry :=
  if (lookupA sensor.name sensors).isSome then (409, sensors)
  else (200, insertA sensor.name sensor sensors)

/-- The operation-specific step of `deregister_sensor`
(`server/src/http_server.rs`): under the registry write lock, remove by
name; 200 if something was removed, 404 otherwise. -/
def deregister_sensor (sensors : Registry) (sensor : Sensor) : Nat × Registry :=
  match removeA sensor.name sensors with
  | (some _, rest) => (200, rest)
  | (none, rest) => (404, rest)

/-! ## Sensor firmware (`sensor/src/main.rs`) -/

/-- Constant `KEY_INTERVAL` from `sensor/src/main.rs`. -/
def KEY_INTERVAL : Nat := 10

/-- Constant `SEED_SIZE` from `sensor/src/main.rs` (2048 / 8). -/
def SEED_SIZE : Nat := 256

/-- The long-term key the firmware passes to `CcmData::new` in `main`. -/
def firmware_long_term_key : List Nat :=
  [253, 164, 146, 234, 150, 173, 182, 68, 139, 195, 116, 215, 26, 83, 82, 82]

/-- Constant `init_vec` from `sensor/src/main.rs`. -/
def firmware_init_vec : List Nat := [0, 1, 2, 3, 4, 5, 6, 7]

/-- The `seed` buffer as `main` initializes it: `[0u8; SEED_SIZE + 4]`.
`update_key` only ever writes its first four bytes, so the tail stays 0. -/
def firmware_initial_seed : List Nat := List.replicate (SEED_SIZE + 4) 0

/-- The hash input `update_key` builds: the big-endian bytes of
`interval_counter` overwrite `seed[0..4]` and the whole buffer is hashed. -/
def update_key_seed (interval_counter : Nat) (seed : List Nat) : List Nat :=
  Sha256.be4 interval_counter ++ seed.drop 4

/-- Function `update_key` from `sensor/src/main.rs`: the new 16-byte CCM key it
installs via `ccm.set_key`, namely `SHA-256(seed)[0..16]` for the seed
buffer above. -/
def update_key (interval_counter : Nat) (seed : List Nat) : List Nat :=
  (Sha256.sha256 (update_key_seed interval_counter seed)).take 16

/-- Wrapping subtraction on `u32` (release-mode `counter - 1`). -/
def u32_wrapping_sub (a b : Nat) : Nat :=
  (a % 4294967296 + (4294967296 - b % 4294967296)) % 4294967296

/-- Embeds `u32::to_le_bytes`. -/
def u32_le_bytes (n : Nat) : List Nat :=
  [n % 256, n / 2 ^ 8 % 256, n / 2 ^ 16 % 256, n / 2 ^ 24 % 256]

/-- The UTF-8 bytes of `"example_sensor"`, the name the firmware emits. -/
def example_sensor_name : List Nat :=
  [101, 120, 97, 109, 112, 108, 101, 95, 115, 101, 110, 115, 111, 114]

/-- The counter field `main` writes to the UART after a frame:
`(counter - 1).to_le_bytes()` of the `u32` counter (post-increment). -/
def main_emit_counter_bytes (counter : Nat) : List Nat :=
  u32_le_bytes (u32_wrapping_sub counter 1)

/-- The whole UART write sequence of one frame in `main`:
`">example_sensor<"`, the counter field, `encrypted_data[1..2]` (the
length byte of the hardware CCM packet) and `encrypted_data[3..]`
(ciphertext and MIC). -/
def main_emit_frame (counter : Nat) (encrypted_data : List Nat) : List Nat :=
  62 :: example_sensor_name ++ 60 ::
    (main_emit_counter_bytes counter ++
      ((encrypted_data.drop 1).take 1 ++ encrypted_data.drop 3))

/-! ## Specification-side definitions -/

/-- The epoch key of the specification (spec §3, §4.5; claims C1 and C2):
`SHA-256(be_bytes(floor(counter / interval), 4) ‖ key)[0..16]`. Defined
from the spec's words, for comparison: no code under `src/` implements
this derivation. -/
def EpochKey (counter : Nat) (key : List Nat) (interval : Nat) : List Nat :=
  (Sha256.sha256 (Sha256.be4 (counter / interval) ++ key)).take 16

/-- The integer a little-endian byte list encodes. -/
def le_value (c : List Nat) : Nat := c.foldr (fun b acc => acc * 256 + b) 0

/-- A well-formed wire frame (spec §4.1): `>`, name, `<`, counter bytes,
one length byte, then exactly that many ciphertext-and-tag bytes. -/
def mkFrame (name counter body : List Nat) : List Nat :=
  62 :: (name ++ 60 :: (counter ++ body.length :: body))

/-! ## Parsing lemmas for the decoder -/

theorem readUntil_cons_self (d : Nat) (t : List Nat) :
    readUntil d (d :: t) = ([d], t) := by
  simp [readUntil]

theorem readUntil_not_mem {d : Nat} {l : List Nat} (h : d ∉ l) (rest : List Nat) :
    readUntil d (l ++ d :: rest) = (l ++ [d], rest) := by
  induction l with
  | nil => simp [readUntil]
  | cons x t ih =>
    have hx : x ≠ d := by
      intro hx; exact h (hx ▸ List.mem_cons_self x t)
    have ht : d ∉ t := fun hm => h (List.mem_cons_of_mem x hm)
    simp [readUntil, hx, ih ht]

theorem take_append_self {α : Type} (l r : List α) : (l ++ r).take l.length = l := by
  induction l with
  | nil => rfl
  | cons x t ih => simp [ih]

theorem drop_append_self {α : Type} (l r : List α) : (l ++ r).drop l.length = r := by
  induction l with
  | nil => rfl
  | cons x t ih => simp [ih]

/-- A first byte `>` starts frame parsing with no informational event. -/
theorem step_starts_gt (sensors : Registry) (dec : DecryptFn) (t : List Nat) :
    handle_data_client_step sensors dec (62 :: t) = nameStep sensors dec [] t := by
  simp [handle_data_client_step, readUntil]

/-- Reading the name when the terminator is present: pop it and check UTF-8. -/
theorem nameStep_found (sensors : Registry) (dec : DecryptFn) (ev0 : List Event)
    {name : List Nat} (h60 : 60 ∉ name) (t : List Nat) :
    nameStep sensors dec ev0 (name ++ 60 :: t) =
      if validUtf8 name then counterStep sensors dec ev0 name t
      else (ev0 ++ [Event.warnName], Next.more t) := by
  have hru := readUntil_not_mem h60 t
  simp only [nameStep, hru]
  have hlen : (name ++ [60]).length ≠ 0 := by simp
  simp [hlen, List.dropLast_concat]

/-- Reading the counter when five bytes are available. -/
theorem counterStep_exact (sensors : Registry) (dec : DecryptFn) (ev0 : List Event)
    (name : List Nat) {counter : List Nat} (hc : counter.length = 5) (t : List Nat) :
    counterStep sensors dec ev0 name (counter ++ t) =
      lenBodyStep sensors dec ev0 name counter t := by
  have hge : ¬ (counter ++ t).length < 5 := by
    simp [hc]
  have htake : (counter ++ t).take 5 = counter := by
    rw [← hc]; exact take_append_self counter t
  have hdrop : (counter ++ t).drop 5 = t := by
    rw [← hc]; exact drop_append_self counter t
  unfold counterStep
  rw [if_neg hge, htake, hdrop]

/-- Reading the length byte and exactly that many body bytes. -/
theorem lenBodyStep_exact (sensors : Registry) (dec : DecryptFn) (ev0 : List Event)
    (name counter body t : List Nat) :
    lenBodyStep sensors dec ev0 name counter (body.length :: (body ++ t)) =
      dispatchStep sensors dec ev0 name counter body t := by
  have hge : ¬ (body ++ t).length < body.length := by simp
  simp [lenBodyStep, hge, take_append_self, drop_append_self]

/-- Dispatch for a known sensor with well-formed key material. -/
theorem dispatchStep_eval {sensors : Registry} {name : List Nat} {sensor : Sensor}
    (hlook : lookupA name sensors = some sensor)
    (hiv : sensor.ccm_data.iv.length = 8) (hkey : sensor.key.length = 16)
    (dec : DecryptFn) (ev0 : List Event) {counter : List Nat} (hc : counter.length = 5)
    (body s5 : List Nat) :
    dispatchStep sensors dec ev0 name counter body s5 =
      match dec sensor.key (counter ++ sensor.ccm_data.iv) body with
      | some bytes =>
        if validUtf8 bytes then (ev0 ++ [Event.decoded bytes], Next.more s5)
        else (ev0, Next.panicked)
      | none => (ev0 ++ [Event.warnMic], Next.more s5) := by
  have hnonce : sensor.ccm_data.get_nonce counter = some (counter ++ sensor.ccm_data.iv) := by
    simp [CcmData.get_nonce, hc, hiv]
  simp [dispatchStep, hlook, hnonce, hkey]

/-- One loop iteration on a well-formed frame for a registered sensor:
the outcome is decided by the decryption of the body under the record's
key and the nonce `counter ‖ iv`, and the iteration continues exactly at
the bytes after the frame. -/
theorem step_frame (sensors : Registry) (dec : DecryptFn)
    (name counter body rest : List Nat) (sensor : Sensor)
    (h60 : 60 ∉ name) (hutf : validUtf8 name = true) (hc : counter.length = 5)
    (hlook : lookupA name sensors = some sensor)
    (hiv : sensor.ccm_data.iv.length = 8) (hkey : sensor.key.length = 16) :
    handle_data_client_step sensors dec (mkFrame name counter body ++ rest) =
      match dec sensor.key (counter ++ sensor.ccm_data.iv) body with
      | some bytes =>
        if validUtf8 bytes then ([Event.decoded bytes], Next.more rest)
        else ([], Next.panicked)
      | none => ([Event.warnMic], Next.more rest) := by
  have hfr : mkFrame name counter body ++ rest
      = 62 :: (name ++ 60 :: (counter ++ (body.length :: (body ++ rest)))) := by
    simp [mkFrame]
  rw [hfr, step_starts_gt, nameStep_found sensors dec [] h60, hutf]
  simp only [if_true]
  rw [counterStep_exact sensors dec [] name hc, lenBodyStep_exact,
    dispatchStep_eval hlook hiv hkey dec [] hc body rest]
  simp only [List.nil_append]

/-! ## Association-list lemmas for the registry -/

theorem lookupA_insertA_self {α β : Type} [DecidableEq α] (k : α) (v : β)
    (l : List (α × β)) : lookupA k (insertA k v l) = some v := by
  induction l with
  | nil => simp [insertA, lookupA]
  | cons p t ih =>
    by_cases hp : p.1 = k
    · cases p with
      | mk a b => simp_all [insertA, lookupA]
    · cases p with
      | mk a b =>
        simp only at hp
        simp [insertA, lookupA, hp, ih]

theorem mem_keys_insertA {α β : Type} [DecidableEq α] {x k : α} {v : β} :
    ∀ {l : List (α × β)}, x ∈ (insertA k v l).map Prod.fst →
      x = k ∨ x ∈ l.map Prod.fst := by
  intro l
  induction l with
  | nil =>
    intro h
    simp only [insertA, List.map_cons, List.map_nil, List.mem_singleton] at h
    exact Or.inl h
  | cons p t ih =>
    intro h
    obtain ⟨a, b⟩ := p
    simp only [insertA] at h
    by_cases hp : a = k
    · rw [if_pos hp] at h
      simp only [List.map_cons, List.mem_cons] at h ⊢
      tauto
    · rw [if_neg hp] at h
      simp only [List.map_cons, List.mem_cons] at h ⊢
      rcases h with h | h
      · tauto
      · rcases ih h with h' | h' <;> tauto

theorem nodup_keys_insertA {α β : Type} [DecidableEq α] {k : α} {v : β} :
    ∀ {l : List (α × β)}, (l.map Prod.fst).Nodup →
      ((insertA k v l).map Prod.fst).Nodup := by
  intro l
  induction l with
  | nil =>
    intro _
    simp [insertA]
  | cons p t ih =>
    intro h
    obtain ⟨a, b⟩ := p
    simp only [List.map_cons, List.nodup_cons] at h
    simp only [insertA]
    by_cases hp : a = k
    · rw [if_pos hp]
      simp only [List.map_cons, List.nodup_cons]
      exact ⟨hp ▸ h.1, h.2⟩
    · rw [if_neg hp]
      simp only [List.map_cons, List.nodup_cons]
      refine ⟨fun hm => ?_, ih h.2⟩
      rcases mem_keys_insertA hm with h' | h'
      · exact hp h'
      · exact h.1 h'

theorem removeA_fst {α β : Type} [DecidableEq α] (k : α) (l : List (α × β)) :
    (removeA k l).1 = lookupA k l := by
  induction l with
  | nil => rfl
  | cons p t ih =>
    cases p with
    | mk a b => by_cases hp : a = k <;> simp [removeA, lookupA, hp, ih]

theorem removeA_sublist {α β : Type} [DecidableEq α] (k : α) (l : List (α × β)) :
    (removeA k l).2.Sublist l := by
  induction l with
  | nil => simp [removeA]
  | cons p t ih =>
    cases p with
    | mk a b =>
      by_cases hp : a = k
      · simp [removeA, hp]
      · simp only [removeA, hp, if_false]
        exact List.Sublist.cons₂ _ ih

theorem removeA_none {α β : Type} [DecidableEq α] {k : α} {l : List (α × β)}
    (h : lookupA k l = none) : (removeA k l).2 = l := by
  induction l with
  | nil => rfl
  | cons p t ih =>
    cases p with
    | mk a b =>
      by_cases hp : a = k
      · simp [lookupA, hp] at h
      · simp only [lookupA, hp, if_false] at h
        simp [removeA, hp, ih h]

theorem lookupA_eq_none_of_not_mem {α β : Type} [DecidableEq α] {k : α} :
    ∀ {l : List (α × β)}, k ∉ l.map Prod.fst → lookupA k l = none := by
  intro l
  induction l with
  | nil => intro _; rfl
  | cons p t ih =>
    intro h
    obtain ⟨a, b⟩ := p
    simp only [List.map_cons, List.mem_cons] at h
    push_neg at h
    have ha : ¬ a = k := fun he => h.1 he.symm
    simp only [lookupA, if_neg ha]
    exact ih h.2

theorem lookupA_removeA_self {α β : Type} [DecidableEq α] {k : α} :
    ∀ {l : List (α × β)}, (l.map Prod.fst).Nodup →
      lookupA k (removeA k l).2 = none := by
  intro l
  induction l with
  | nil => intro _; rfl
  | cons p t ih =>
    intro h
    obtain ⟨a, b⟩ := p
    simp only [List.map_cons, List.nodup_cons] at h
    by_cases hp : a = k
    · simp only [removeA, if_pos hp]
      exact lookupA_eq_none_of_not_mem (hp ▸ h.1)
    · simp only [removeA, if_neg hp, lookupA]
      exact ih h.2

/-! ## SHA-256 sanity checks (FIPS 180-2 test vectors) -/

theorem sha256_vector_abc : Sha256.sha256 [97, 98, 99] =
    [186, 120, 22, 191, 143, 1, 207, 234, 65, 65, 64, 222, 93, 174, 34, 35,
     176, 3, 97, 163, 150, 23, 122, 156, 180, 16, 255, 97, 242, 0, 21, 173] := by
  decide

theorem sha256_vector_empty : Sha256.sha256 [] =
    [227, 176, 196, 66, 152, 252, 28, 20, 154, 251, 244, 200, 153, 111, 185, 36,
     39, 174, 65, 228, 100, 155, 147, 76, 164, 149, 153, 27, 120, 82, 184, 85] := by
  decide

/-! ## Claim theorems -/

/-- A concrete record, for witnesses: the example sensor of the repository
(`server/src/main.rs` commented example and the test client). -/
def example_sensor_record : Sensor :=
  { name := example_sensor_name
    fields := []
    field_types := []
    key := firmware_long_term_key
    interval := 10
    ccm_data := { direction_bit := false, iv := firmware_init_vec } }

/-- A concrete record named `"s1"`, for the registry witnesses. -/
def sensor_s1 : Sensor :=
  { name := [115, 49]
    fields := []
    field_types := []
    key := List.replicate 16 0
    interval := 1
    ccm_data := { direction_bit := false, iv := List.replicate 8 0 } }

/-- Claim C5: an authenticated register request with record `r` returns 409
and leaves the registry unchanged when `r.name` is present, otherwise
inserts `r` under `r.name` and returns 200; either way the registry keys
stay pairwise distinct. -/
theorem c5_register_semantics (sensors : Registry) (r : Sensor)
    (hnodup : (sensors.map Prod.fst).Nodup) :
    ((lookupA r.name sensors).isSome →
        register_sensor sensors r = (409, sensors)) ∧
    ((lookupA r.name sensors).isNone →
        register_sensor sensors r = (200, insertA r.name r sensors) ∧
          lookupA r.name (insertA r.name r sensors) = some r) ∧
    ((register_sensor sensors r).2.map Prod.fst).Nodup := by
  refine ⟨?_, ?_, ?_⟩
  · intro h
    simp [register_sensor, h]
  · intro h
    have h' : (lookupA r.name sensors).isSome = false := by
      rcases hl : lookupA r.name sensors with _ | v
      · rfl
      · rw [hl] at h; simp at h
    exact ⟨by simp [register_sensor, h'], lookupA_insertA_self r.name r sensors⟩
  · rcases hl : (lookupA r.name sensors).isSome with _ | _
    · simp only [register_sensor, hl, Bool.false_eq_true, if_false]
      exact nodup_keys_insertA hnodup
    · simp only [register_sensor, hl, if_true]
      exact hnodup

/-- Witness for C5 at the empty registry and the record `sensor_s1`. -/
theorem c5_register_semantics_witness :
    ((([] : Registry)).map Prod.fst).Nodup ∧
      (lookupA sensor_s1.name ([] : Registry)).isNone ∧
      register_sensor [] sensor_s1 = (200, insertA sensor_s1.name sensor_s1 []) ∧
      lookupA sensor_s1.name (insertA sensor_s1.name sensor_s1 []) = some sensor_s1 :=
  ⟨by simp, by decide,
    ((c5_register_semantics [] sensor_s1 (by simp)).2.1 (by decide)).1,
    ((c5_register_semantics [] sensor_s1 (by simp)).2.1 (by decide)).2⟩

/-- Claim C6: an authenticated deregister request with record `r` returns
404 and leaves the registry unchanged when `r.name` is absent, otherwise
removes the record stored under `r.name` and returns 200; the registry
keys stay pairwise distinct. -/
theorem c6_deregister_semantics (sensors : Registry) (r : Sensor)
    (hnodup : (sensors.map Prod.fst).Nodup) :
    (lookupA r.name sensors = none →
        deregister_sensor sensors r = (404, sensors)) ∧
    (∀ v, lookupA r.name sensors = some v →
        deregister_sensor sensors r = (200, (removeA r.name sensors).2) ∧
          lookupA r.name (removeA r.name sensors).2 = none) ∧
    ((deregister_sensor sensors r).2.map Prod.fst).Nodup := by
  rcases hrm : removeA r.name sensors with ⟨o, rest⟩
  have hfst : o = lookupA r.name sensors := by
    have := removeA_fst r.name sensors
    rwa [hrm] at this
  have hsub : rest.Sublist sensors := by
    have := removeA_sublist r.name sensors
    rwa [hrm] at this
  refine ⟨?_, ?_, ?_⟩
  · intro h
    have hrest : rest = sensors := by
      have := removeA_none h
      rwa [hrm] at this
    have ho : o = none := hfst.trans h
    subst ho
    subst hrest
    simp [deregister_sensor, hrm]
  · intro v h
    have ho : o = some v := hfst.trans h
    subst ho
    refine ⟨?_, ?_⟩
    · simp [deregister_sensor, hrm]
    · have h3 := @lookupA_removeA_self (List Nat) Sensor _ r.name sensors hnodup
      rwa [hrm] at h3
  · have h2 : (deregister_sensor sensors r).2 = rest := by
      cases o <;> simp [deregister_sensor, hrm]
    rw [h2]
    exact List.Nodup.sublist (hsub.map Prod.fst) hnodup

/-- Witness for C6 at the one-record registry holding `sensor_s1`. -/
theorem c6_deregister_semantics_witness :
    (([(sensor_s1.name, sensor_s1)] : Registry).map Prod.fst).Nodup ∧
      lookupA sensor_s1.name [(sensor_s1.name, sensor_s1)] = some sensor_s1 ∧
      deregister_sensor [(sensor_s1.name, sensor_s1)] sensor_s1 =
        (200, (removeA sensor_s1.name [(sensor_s1.name, sensor_s1)]).2) ∧
      lookupA sensor_s1.name (removeA sensor_s1.name [(sensor_s1.name, sensor_s1)]).2 = none :=
  ⟨by simp, by decide,
    ((c6_deregister_semantics [(sensor_s1.name, sensor_s1)] sensor_s1 (by simp)).2.1
      sensor_s1 (by decide)).1,
    ((c6_deregister_semantics [(sensor_s1.name, sensor_s1)] sensor_s1 (by simp)).2.1
      sensor_s1 (by decide)).2⟩

/-- Claim C8: for every 5-byte counter and record with an 8-byte iv, the
nonce the server constructs is exactly the received counter bytes followed
by the record's iv, 13 bytes in all. -/
theorem c8_nonce_exact (d : CcmData) (counter : List Nat)
    (hc : counter.length = 5) (hiv : d.iv.length = 8) :
    d.get_nonce counter = some (counter ++ d.iv) ∧ (counter ++ d.iv).length = 13 := by
  constructor
  · simp [CcmData.get_nonce, hc, hiv]
  · simp [hc, hiv]

/-- Witness for C8 at counter bytes `[0,0,0,0,0]` and the example iv. -/
theorem c8_nonce_exact_witness :
    ([0, 0, 0, 0, 0] : List Nat).length = 5 ∧ firmware_init_vec.length = 8 ∧
      (CcmData.mk false firmware_init_vec).get_nonce [0, 0, 0, 0, 0] =
        some ([0, 0, 0, 0, 0] ++ firmware_init_vec) ∧
      (([0, 0, 0, 0, 0] : List Nat) ++ firmware_init_vec).length = 13 :=
  ⟨by decide, by decide,
    (c8_nonce_exact (CcmData.mk false firmware_init_vec) [0, 0, 0, 0, 0]
      (by decide) (by decide)).1,
    (c8_nonce_exact (CcmData.mk false firmware_init_vec) [0, 0, 0, 0, 0]
      (by decide) (by decide)).2⟩

/-- Claim C9: a frame whose name bytes are not valid UTF-8 produces a
warning and the handler resumes seeking the next frame start on the very
bytes after the name terminator: the connection is not closed and the rest
of the stream is processed from a fresh state. -/
theorem c9_bad_name_resync (sensors : Registry) (dec : DecryptFn)
    {nameBytes : List Nat} (hbad : validUtf8 nameBytes = false)
    (h60 : 60 ∉ nameBytes) (rest : List Nat) :
    handle_data_client sensors dec (62 :: (nameBytes ++ 60 :: rest)) =
      (Event.warnName :: (handle_data_client sensors dec rest).1,
       (handle_data_client sensors dec rest).2) := by
  have hstep : handle_data_client_step sensors dec (62 :: (nameBytes ++ 60 :: rest)) =
      ([Event.warnName], Next.more rest) := by
    rw [step_starts_gt, nameStep_found sensors dec [] h60, hbad]
    simp
  rw [handle_data_client_more hstep]
  simp

/-- Witness for C9 at the invalid name byte `0x80` and an empty remainder. -/
theorem c9_bad_name_resync_witness :
    validUtf8 [128] = false ∧ (60 : Nat) ∉ ([128] : List Nat) ∧
      handle_data_client [] (fun _ _ _ => none) (62 :: ([128] ++ 60 :: [])) =
        (Event.warnName :: (handle_data_client [] (fun _ _ _ => none) []).1,
         (handle_data_client [] (fun _ _ _ => none) []).2) :=
  ⟨by decide, by decide,
    c9_bad_name_resync [] (fun _ _ _ => none) (by decide) (by decide) []⟩

/-- Claim C10: a frame that decrypts successfully is logged through an
unchecked `String::from_utf8(..).unwrap()`; when the plaintext is not
valid UTF-8 the connection task panics instead of logging or continuing. -/
theorem c10_non_utf8_plaintext_panics (sensors : Registry) (dec : DecryptFn)
    (name counter body rest : List Nat) (sensor : Sensor) (bytes : List Nat)
    (h60 : 60 ∉ name) (hutf : validUtf8 name = true) (hc : counter.length = 5)
    (hlook : lookupA name sensors = some sensor)
    (hiv : sensor.ccm_data.iv.length = 8) (hkey : sensor.key.length = 16)
    (hdec : dec sensor.key (counter ++ sensor.ccm_data.iv) body = some bytes)
    (hbad : validUtf8 bytes = false) :
    handle_data_client sensors dec (mkFrame name counter body ++ rest) =
      ([], EndState.panicked) := by
  have hstep := step_frame sensors dec name counter body rest sensor
    h60 hutf hc hlook hiv hkey
  rw [hdec] at hstep
  simp only [hbad, Bool.false_eq_true, if_false] at hstep
  exact handle_data_client_panicked hstep

/-- Witness for C10: a decryption oracle returning the non-UTF-8 plaintext
`[0x80]` on the example frame. -/
theorem c10_non_utf8_plaintext_panics_witness :
    validUtf8 example_sensor_name = true ∧ validUtf8 [128] = false ∧
      lookupA example_sensor_name [(example_sensor_name, example_sensor_record)] =
        some example_sensor_record ∧
      handle_data_client [(example_sensor_name, example_sensor_record)]
          (fun _ _ _ => some [128])
          (mkFrame example_sensor_name [0, 0, 0, 0, 0] [] ++ []) =
        ([], EndState.panicked) :=
  ⟨by decide, by decide, by decide,
    c10_non_utf8_plaintext_panics [(example_sensor_name, example_sensor_record)]
      (fun _ _ _ => some [128]) example_sensor_name [0, 0, 0, 0, 0] [] []
      example_sensor_record [128]
      (by decide) (by decide) (by decide) (by decide)
      (by decide) (by decide) (by decide) (by decide)⟩

/-- Claim C4: a frame whose decryption fails only logs a warning — the
connection is not closed, the handler seeks the next frame start, and a
following well-formed frame on the same connection is still decoded. -/
theorem c4_mic_failure_does_not_close (sensors : Registry) (dec : DecryptFn)
    (n1 c1 b1 n2 c2 b2 rest : List Nat) (s1 s2 : Sensor) (p : List Nat)
    (h60a : 60 ∉ n1) (hua : validUtf8 n1 = true) (hca : c1.length = 5)
    (hla : lookupA n1 sensors = some s1)
    (hiva : s1.ccm_data.iv.length = 8) (hkeya : s1.key.length = 16)
    (hdec1 : dec s1.key (c1 ++ s1.ccm_data.iv) b1 = none)
    (h60b : 60 ∉ n2) (hub : validUtf8 n2 = true) (hcb : c2.length = 5)
    (hlb : lookupA n2 sensors = some s2)
    (hivb : s2.ccm_data.iv.length = 8) (hkeyb : s2.key.length = 16)
    (hdec2 : dec s2.key (c2 ++ s2.ccm_data.iv) b2 = some p)
    (hup : validUtf8 p = true) :
    handle_data_client sensors dec (mkFrame n1 c1 b1 ++ (mkFrame n2 c2 b2 ++ rest)) =
      (Event.warnMic :: Event.decoded p :: (handle_data_client sensors dec rest).1,
       (handle_data_client sensors dec rest).2) := by
  have hstep1 : handle_data_client_step sensors dec
      (mkFrame n1 c1 b1 ++ (mkFrame n2 c2 b2 ++ rest)) =
      ([Event.warnMic], Next.more (mkFrame n2 c2 b2 ++ rest)) := by
    rw [step_frame sensors dec n1 c1 b1 (mkFrame n2 c2 b2 ++ rest) s1
      h60a hua hca hla hiva hkeya, hdec1]
  have hstep2 : handle_data_client_step sensors dec (mkFrame n2 c2 b2 ++ rest) =
      ([Event.decoded p], Next.more rest) := by
    rw [step_frame sensors dec n2 c2 b2 rest s2 h60b hub hcb hlb hivb hkeyb, hdec2]
    simp [hup]
  rw [handle_data_client_more hstep1, handle_data_client_more hstep2]
  simp

/-- Witness for C4: an oracle that rejects the first body and decodes the
second to `"A"`, on two consecutive frames of the example sensor. -/
theorem c4_mic_failure_does_not_close_witness :
    (fun k _ b => if b = [1] then none
      else if k = firmware_long_term_key then some [65] else none :
        DecryptFn) example_sensor_record.key
        ([0, 0, 0, 0, 0] ++ example_sensor_record.ccm_data.iv) [1] = none ∧
    handle_data_client [(example_sensor_name, example_sensor_record)]
        (fun k _ b => if b = [1] then none
          else if k = firmware_long_term_key then some [65] else none)
        (mkFrame example_sensor_name [0, 0, 0, 0, 0] [1] ++
          (mkFrame example_sensor_name [1, 0, 0, 0, 0] [2] ++ [])) =
      (Event.warnMic :: Event.decoded [65] ::
        (handle_data_client [(example_sensor_name, example_sensor_record)]
          (fun k _ b => if b = [1] then none
            else if k = firmware_long_term_key then some [65] else none) []).1,
       (handle_data_client [(example_sensor_name, example_sensor_record)]
          (fun k _ b => if b = [1] then none
            else if k = firmware_long_term_key then some [65] else none) []).2) :=
  ⟨by decide,
    c4_mic_failure_does_not_close [(example_sensor_name, example_sensor_record)]
      (fun k _ b => if b = [1] then none
        else if k = firmware_long_term_key then some [65] else none)
      example_sensor_name [0, 0, 0, 0, 0] [1]
      example_sensor_name [1, 0, 0, 0, 0] [2] []
      example_sensor_record example_sensor_record [65]
      (by decide) (by decide) (by decide) (by decide) (by decide) (by decide)
      (by decide)
      (by decide) (by decide) (by decide) (by decide) (by decide) (by decide)
      (by decide) (by decide)⟩

/-- Claim C3: the shared authentication step of register/deregister
returns exactly the claimed status codes, with the conditions checked in
the claimed order: missing or non-UTF-8 header 400; unknown user 401;
malformed challenge header 400; missing or failed challenge verification
403; malformed signature header 400; failed body-signature verification
401; undeserializable body 400. Stated as the extensional equality of the
code's pipeline with the claim's ordered condition list. -/
theorem c3_auth_status_order (env : AuthEnv) (h : RequestHeaders) (body : List Nat) :
    authenticate_and_parse_sensor env h body = claimed_auth_status env h body := by
  obtain ⟨u, s, k, c⟩ := h
  rcases u with _ | (_ | u) <;> rcases s with _ | (_ | s) <;>
    rcases k with _ | (_ | k) <;> rcases c with _ | (_ | c) <;> try rfl
  simp only [authenticate_and_parse_sensor, claimed_auth_status]
  rcases hu : lookupA u env.authorized_users with _ | vkey
  · simp [hu]
  rcases hb : env.b64_decode c with _ | cb
  · simp [hu, hb]
  rcases hs : env.sig_try_from cb with _ | chalSig
  · simp [hu, hb, hs]
  rcases hch : lookupA u env.user_challenges with _ | stored
  · simp [hu, hb, hs, hch]
  rcases hv : env.verify vkey stored chalSig with _ | _
  · simp [hu, hb, hs, hch, hv]
  rcases hb2 : env.b64_decode s with _ | sb
  · simp [hu, hb, hs, hch, hv, hb2]
  rcases hs2 : env.sig_try_from sb with _ | bodySig
  · simp [hu, hb, hs, hch, hv, hb2, hs2]
  rcases hv2 : env.verify vkey body bodySig with _ | _
  · simp [hu, hb, hs, hch, hv, hb2, hs2, hv2]
  rcases hp : env.parse_sensor body with _ | sensor
  · simp [hu, hb, hs, hch, hv, hb2, hs2, hv2, hp]
  · simp [hu, hb, hs, hch, hv, hb2, hs2, hv2, hp]

set_option maxRecDepth 1000000

/-- Claim C7 (refuted; code bug): the firmware writes the counter to the
UART as `(counter - 1).to_le_bytes()` of a `u32` — four little-endian
bytes, not the five the wire format, the ingestion server and the test
client use. After the first successful encryption (counter post-increment
1) the emitted counter field is `[0, 0, 0, 0]`. -/
theorem c7_counter_field_is_four_bytes :
    (∀ counter : Nat, (main_emit_counter_bytes counter).length = 4) ∧
      main_emit_counter_bytes 1 = [0, 0, 0, 0] ∧
      main_emit_frame 1 [0, 49, 0, 9, 9, 9, 9] =
        62 :: example_sensor_name ++ 60 :: ([0, 0, 0, 0] ++ ([49] ++ [9, 9, 9, 9])) :=
  ⟨fun _ => rfl, by decide, by decide⟩

/-- Claim C2 (refuted; code bug): on an epoch rollover the firmware hashes
the whole 260-byte `seed` buffer, whose first four bytes are the
big-endian epoch index and whose remaining 256 bytes stay zero — `main`
never copies the 16-byte long-term key into it. At the first rollover
(epoch 1, counter 10, interval 10) the installed key is
`SHA-256(BE4(1) ‖ 0^256)[0..16]`, which differs from the claimed
`SHA-256(BE4(1) ‖ K)[0..16]`. -/
theorem c2_update_key_ignores_long_term_key :
    update_key_seed 1 firmware_initial_seed =
        Sha256.be4 1 ++ List.replicate 256 0 ∧
      update_key_seed 1 firmware_initial_seed ≠
        Sha256.be4 1 ++ firmware_long_term_key ∧
      update_key 1 firmware_initial_seed ≠
        EpochKey 10 firmware_long_term_key KEY_INTERVAL :=
  ⟨by decide, by decide, by decide⟩

/-- Claim C1 (refuted; code bug): the ingestion dispatch builds the cipher
directly from the record's long-term key (`Aes128Ccm::new_from_slice(&sensor.key)`)
and derives no epoch key; a decryption oracle that succeeds only under the
long-term key decodes a frame whose counter (10, interval 10) lies in
epoch 1, although the claimed per-frame epoch key differs from the
long-term key. -/
theorem c1_server_decrypts_with_long_term_key :
    handle_data_client_step [(example_sensor_name, example_sensor_record)]
        (fun key _ _ => if key = firmware_long_term_key then some [65] else none)
        (mkFrame example_sensor_name [10, 0, 0, 0, 0] [7, 7, 7]) =
      ([Event.decoded [65]], Next.more []) ∧
    le_value [10, 0, 0, 0, 0] = 10 ∧
    EpochKey 10 firmware_long_term_key example_sensor_record.interval ≠
      firmware_long_term_key :=
  ⟨by decide, by decide, by decide⟩

end RSDS
